import Mathlib

/-!
Shallow embedding of the car-scanner front-end (src/App.tsx and
src/services/geminiService.ts) together with proofs about its request
adapter and its interaction-controller state machine.

The adapter `analyzeCarImage` is embedded as a function of an explicit
environment that resolves the platform primitives the source calls
(`process.env.API_KEY`, the `FileReader` result, the remote model call and
the result of `JSON.parse` on its response text).  The React component is
embedded as a record of flat state fields (`useState` hooks) plus pure
handlers, and the user-visible event loop as a step function on a world
that also tracks allocated object URLs and in-flight adapter requests.
-/

/-- An uploaded file: an opaque identity plus its MIME type string. -/
structure File where
  id : Nat
  mime : String
deriving DecidableEq, Repr

/-- A JSON value, the possible results of JSON.parse on a response body. -/
inductive Json where
  | null : Json
  | bool (b : Bool) : Json
  | num (n : Int) : Json
  | str (s : String) : Json
  | arr (elems : List Json) : Json
  | obj (fields : List (String × Json)) : Json

/-- Property lookup on a parsed JSON object; undefined on non-objects. -/
def lookupField : List (String × Json) → String → Option Json
  | [], _ => none
  | (k, v) :: rest, key => if k = key then some v else lookupField rest key

/-- Reading a property of a JSON value, as JS property access does. -/
def Json.getField : Json → String → Option Json
  | .obj fields, key => lookupField fields key
  | _, _ => none

/-- A JSON value seen as a string, none when it is not a string. -/
def Json.asString : Json → Option String
  | .str s => some s
  | _ => none

/-- Reading a property and requiring it to be a string. -/
def Json.strField (j : Json) (key : String) : Option String :=
  (j.getField key).bind Json.asString

/-- The runtime shape of the value the adapter returns: the parsed JSON
object viewed through the four fields of the declared CarAnalysis
interface.  The unchecked cast in the source performs no validation, so
each field is present only if the JSON object carried it as a string. -/
structure RawAnalysis where
  make : Option String
  model : Option String
  color : Option String
  year : Option String
deriving DecidableEq, Repr

/-- The view of a parsed JSON value through the CarAnalysis interface,
modelling the unchecked `result as CarAnalysis` cast of the source. -/
def toRawAnalysis (j : Json) : RawAnalysis :=
  { make := j.strField "make"
    model := j.strField "model"
    color := j.strField "color"
    year := j.strField "year" }

/-- All four declared fields are present. -/
def RawAnalysis.complete (r : RawAnalysis) : Bool :=
  r.make.isSome && r.model.isSome && r.color.isSome && r.year.isSome

/-- The response-schema contract of the external service (section 6 of the
spec): a JSON object carrying the four required string fields. -/
def conformsToSchema (j : Json) : Bool :=
  (j.strField "make").isSome && (j.strField "model").isSome &&
    (j.strField "color").isSome && (j.strField "year").isSome

/-- The error value thrown by the adapter, carrying only a message. -/
structure AnalysisError where
  message : String
deriving DecidableEq, Repr

/-- Outcome of the one remote call: a transport failure (the awaited call
rejects), or a response whose text either parses to a JSON value or fails
to parse (including a missing response text). -/
inductive RemoteOutcome where
  | transportFail : RemoteOutcome
  | respond (parsed : Option Json) : RemoteOutcome

/-- The environment resolving the platform primitives the adapter calls:
the configured credential, the FileReader result (none when reading fails
or does not yield a string), and the remote call outcome. -/
structure AdapterEnv where
  apiKey : Option String
  readResult : Option String
  remote : RemoteOutcome

/-- JS truthiness of the credential string: `!process.env.API_KEY` is
taken when the variable is absent or the empty string. -/
def truthyKey : Option String → Bool
  | none => false
  | some s => s != ""

/-- The inline image payload built for the request: the base64 part of the
data URL (after the first comma) plus the MIME type of the file. -/
structure InlineImagePart where
  data : Option String
  mimeType : String
deriving DecidableEq, Repr

/-- Embedding of fileToGenerativePart: converts the FileReader result into
the inline payload, or rejects when reading did not yield a data URL. -/
def fileToGenerativePart (readResult : Option String) (file : File) :
    Except AnalysisError InlineImagePart :=
  match readResult with
  | none => .error ⟨"Failed to read file as data URL."⟩
  | some dataUrl =>
      .ok { data := ((dataUrl.splitOn ",").drop 1).head?, mimeType := file.mime }

/-- The normalized message produced by the catch block of the adapter. -/
def analysisFailureMessage : String :=
  "Failed to analyze image. The AI model could not process the request."

/-- One run of the adapter: its outcome plus the observable effects, namely
whether image encoding was attempted and which request (if any) was sent. -/
structure AdapterRun where
  outcome : Except AnalysisError RawAnalysis
  encodeAttempted : Bool
  sentRequest : Option InlineImagePart

/-- Embedding of analyzeCarImage: check the credential, encode the image,
issue the one request, and either return the cast parse result or throw
the single normalized error from the catch block. -/
def analyzeCarImage (env : AdapterEnv) (file : File) : AdapterRun :=
  if !truthyKey env.apiKey then
    { outcome := .error ⟨"API_KEY is not configured."⟩
      encodeAttempted := false
      sentRequest := none }
  else
    match fileToGenerativePart env.readResult file with
    | .error e => { outcome := .error e, encodeAttempted := true, sentRequest := none }
    | .ok imagePart =>
        match env.remote with
        | .transportFail =>
            { outcome := .error ⟨analysisFailureMessage⟩
              encodeAttempted := true
              sentRequest := some imagePart }
        | .respond none =>
            { outcome := .error ⟨analysisFailureMessage⟩
              encodeAttempted := true
              sentRequest := some imagePart }
        | .respond (some j) =>
            { outcome := .ok (toRawAnalysis j)
              encodeAttempted := true
              sentRequest := some imagePart }

/-- A sample uploaded file. -/
def sampleFile : File := ⟨0, "image/jpeg"⟩

/-- A schema-conforming response body as parsed JSON. -/
def sampleJson : Json :=
  .obj [("make", .str "Toyota"), ("model", .str "Camry"),
        ("color", .str "Blue"), ("year", .str "2021")]

/-- An adapter environment with a credential and a conforming response. -/
def sampleEnv : AdapterEnv :=
  ⟨some "k", some "data:image/jpeg;base64,AAAA", .respond (some sampleJson)⟩

/-- An adapter environment with no credential configured. -/
def noKeyEnv : AdapterEnv := ⟨none, some "data:image/jpeg;base64,AAAA", .transportFail⟩

/-- C1: when the remote service honors its response-schema contract, the
adapter either fails with an AnalysisError or returns a record with all
four string fields present; it never returns a partial record. -/
theorem analyzeCarImage_complete_or_error (env : AdapterEnv) (file : File)
    (hc : ∀ j, env.remote = RemoteOutcome.respond (some j) → conformsToSchema j = true) :
    (∃ e, (analyzeCarImage env file).outcome = Except.error e) ∨
      (∃ r, (analyzeCarImage env file).outcome = Except.ok r ∧ r.complete = true) := by
  rcases env with ⟨key, rd, rem⟩
  cases htk : truthyKey key with
  | false =>
      exact Or.inl ⟨⟨"API_KEY is not configured."⟩, by simp [analyzeCarImage, htk]⟩
  | true =>
      cases rd with
      | none =>
          exact Or.inl ⟨⟨"Failed to read file as data URL."⟩,
            by simp [analyzeCarImage, fileToGenerativePart, htk]⟩
      | some dataUrl =>
          cases rem with
          | transportFail =>
              exact Or.inl ⟨⟨analysisFailureMessage⟩,
                by simp [analyzeCarImage, fileToGenerativePart, htk]⟩
          | respond o =>
              cases o with
              | none =>
                  exact Or.inl ⟨⟨analysisFailureMessage⟩,
                    by simp [analyzeCarImage, fileToGenerativePart, htk]⟩
              | some j =>
                  refine Or.inr ⟨toRawAnalysis j,
                    by simp [analyzeCarImage, fileToGenerativePart, htk], ?_⟩
                  have hj := hc j rfl
                  simpa [RawAnalysis.complete, toRawAnalysis, conformsToSchema] using hj

/-- Witness for C1 at a concrete conforming environment. -/
theorem analyzeCarImage_complete_or_error_witness :
    (∃ e, (analyzeCarImage sampleEnv sampleFile).outcome = Except.error e) ∨
      (∃ r, (analyzeCarImage sampleEnv sampleFile).outcome = Except.ok r ∧
        r.complete = true) :=
  analyzeCarImage_complete_or_error sampleEnv sampleFile (by
    intro j hj
    have hj2 : sampleJson = j := by
      simpa [sampleEnv] using hj
    subst hj2
    decide)

/-- C4: with no credential configured, the adapter fails at once with the
configuration-error message, attempts no image encoding and sends no
request. -/
theorem analyzeCarImage_missing_key (env : AdapterEnv) (file : File)
    (h : env.apiKey = none) :
    (analyzeCarImage env file).outcome = Except.error ⟨"API_KEY is not configured."⟩ ∧
      (analyzeCarImage env file).encodeAttempted = false ∧
      (analyzeCarImage env file).sentRequest = none := by
  have htk : truthyKey env.apiKey = false := by rw [h]; rfl
  refine ⟨?_, ?_, ?_⟩ <;> simp [analyzeCarImage, htk]

/-- Witness for C4 at a concrete environment with no credential. -/
theorem analyzeCarImage_missing_key_witness :
    (analyzeCarImage noKeyEnv sampleFile).outcome =
        Except.error ⟨"API_KEY is not configured."⟩ ∧
      (analyzeCarImage noKeyEnv sampleFile).encodeAttempted = false ∧
      (analyzeCarImage noKeyEnv sampleFile).sentRequest = none :=
  analyzeCarImage_missing_key noKeyEnv sampleFile rfl

/-- C8: a transport failure and a parse failure of the response body are
normalized to the very same AnalysisError value, so the caller cannot
distinguish the two failure kinds from the error it receives. -/
theorem analyzeCarImage_failures_indistinguishable (key dataUrl : String)
    (file : File) (h : key ≠ "") :
    (analyzeCarImage ⟨some key, some dataUrl, RemoteOutcome.transportFail⟩ file).outcome
        = Except.error ⟨analysisFailureMessage⟩ ∧
      (analyzeCarImage ⟨some key, some dataUrl, RemoteOutcome.respond none⟩ file).outcome
        = Except.error ⟨analysisFailureMessage⟩ := by
  have htk : truthyKey (some key) = true := by
    simp [truthyKey, h]
  constructor <;> simp [analyzeCarImage, fileToGenerativePart, htk]

/-- Witness for C8 at a concrete keyed environment. -/
theorem analyzeCarImage_failures_indistinguishable_witness :
    (analyzeCarImage ⟨some "test-key", some "data:x,y", RemoteOutcome.transportFail⟩
          sampleFile).outcome = Except.error ⟨analysisFailureMessage⟩ ∧
      (analyzeCarImage ⟨some "test-key", some "data:x,y", RemoteOutcome.respond none⟩
          sampleFile).outcome = Except.error ⟨analysisFailureMessage⟩ :=
  analyzeCarImage_failures_indistinguishable "test-key" "data:x,y" sampleFile
    (by decide)

/-- The flat component state of the App component: the five useState
hooks. -/
structure AppState where
  imageFile : Option File
  previewUrl : Option Nat
  analysisResult : Option RawAnalysis
  isLoading : Bool
  error : Option String
deriving DecidableEq, Repr

/-- The browser object-URL registry: the URLs currently allocated and the
next fresh URL token. -/
structure UrlEnv where
  allocated : List Nat
  next : Nat
deriving DecidableEq, Repr

/-- URL.createObjectURL: allocates a fresh handle for the file. -/
def createObjectURL (u : UrlEnv) (_file : File) : Nat × UrlEnv :=
  (u.next, ⟨u.next :: u.allocated, u.next + 1⟩)

/-- URL.revokeObjectURL: releases the handle. -/
def revokeObjectURL (u : UrlEnv) (url : Nat) : UrlEnv :=
  ⟨u.allocated.filter (fun m => m != url), u.next⟩

/-- The initial component state: all hooks start empty or false. -/
def initialAppState : AppState :=
  { imageFile := none, previewUrl := none, analysisResult := none,
    isLoading := false, error := none }

/-- Embedding of handleFileSelect: stores the file, allocates a preview
URL for it, and clears the previous result and error.  It neither revokes
the previous preview URL nor touches the loading flag. -/
def handleFileSelect (file : File) (s : AppState) (u : UrlEnv) : AppState × UrlEnv :=
  let p := createObjectURL u file
  ({ s with imageFile := some file, previewUrl := some p.1,
            analysisResult := none, error := none }, p.2)

/-- Embedding of the synchronous part of handleScan up to the await: bails
out when no file is selected, otherwise raises the loading flag and clears
error and result.  The boolean records whether the adapter was invoked. -/
def handleScanStart (s : AppState) : AppState × Bool :=
  match s.imageFile with
  | none => (s, false)
  | some _ =>
      ({ s with isLoading := true, error := none, analysisResult := none }, true)

/-- Embedding of the try-branch continuation of handleScan: store the
result, then the finally-branch clears the loading flag. -/
def scanResolve (r : RawAnalysis) (s : AppState) : AppState :=
  { s with analysisResult := some r, isLoading := false }

/-- The message stored by the catch branch: err.message when truthy, else
the fallback text. -/
def errMessageOr (m : Option String) : String :=
  match m with
  | some msg => if msg = "" then "An unknown error occurred." else msg
  | none => "An unknown error occurred."

/-- Embedding of the catch-branch continuation of handleScan: store the
error message, then the finally-branch clears the loading flag. -/
def scanReject (m : Option String) (s : AppState) : AppState :=
  { s with error := some (errMessageOr m), isLoading := false }

/-- Embedding of resetState: revoke the current preview URL if any, then
clear every state field. -/
def resetState (s : AppState) (u : UrlEnv) : AppState × UrlEnv :=
  let u2 := match s.previewUrl with
    | some url => revokeObjectURL u url
    | none => u
  ({ s with imageFile := none, previewUrl := none, analysisResult := none,
            error := none, isLoading := false }, u2)

/-- The user-visible events: picking a file, clicking scan, clicking a
reset control, and the resolution or rejection of an in-flight adapter
call. -/
inductive Ev where
  | select (file : File) : Ev
  | scan : Ev
  | reset : Ev
  | resolve (r : RawAnalysis) : Ev
  | reject (m : Option String) : Ev

/-- The whole interactive system: component state, the object-URL
registry, and the queue of in-flight adapter calls tagged with the file
that initiated each. -/
structure World where
  app : AppState
  urls : UrlEnv
  pending : List File
deriving DecidableEq, Repr

/-- One step of the event loop, with the guards the rendered UI imposes:
the file picker exists only while no image is held; the scan button exists
only with an image and no result, and is disabled while loading; the reset
controls exist only while an image is held; a completion event fires only
when a request is in flight (no cancellation ever removes one). -/
def step (w : World) (e : Ev) : World :=
  match e with
  | .select f =>
      match w.app.imageFile with
      | none =>
          let p := handleFileSelect f w.app w.urls
          { w with app := p.1, urls := p.2 }
      | some _ => w
  | .scan =>
      match w.app.imageFile with
      | some f =>
          if w.app.analysisResult = none ∧ w.app.isLoading = false then
            { w with app := (handleScanStart w.app).1, pending := w.pending ++ [f] }
          else w
      | none => w
  | .reset =>
      match w.app.imageFile with
      | some _ =>
          let p := resetState w.app w.urls
          { w with app := p.1, urls := p.2 }
      | none => w
  | .resolve r =>
      match w.pending with
      | [] => w
      | _ :: rest => { w with app := scanResolve r w.app, pending := rest }
  | .reject m =>
      match w.pending with
      | [] => w
      | _ :: rest => { w with app := scanReject m w.app, pending := rest }

/-- The initial world: pristine state, no URLs, nothing in flight. -/
def initWorld : World := ⟨initialAppState, ⟨[], 0⟩, []⟩

/-- Running a list of user events from the initial world. -/
def run (evs : List Ev) : World := evs.foldl step initWorld

/-- The event loop restricted to users who never reset while a request is
in flight; all other events behave exactly as in `step`. -/
def stepSafe (w : World) (e : Ev) : World :=
  match e with
  | .reset => if w.pending = [] then step w .reset else w
  | _ => step w e

/-- Running a list of events under the reset-discipline semantics. -/
def runSafe (evs : List Ev) : World := evs.foldl stepSafe initWorld

/-- Invariant of the real event loop: the object-URL registry holds
exactly the handle of the current preview (so no stale handle survives),
and whenever no image is held there is no preview handle and the loading
flag is down. -/
def FullInv (w : World) : Prop :=
  w.urls.allocated = w.app.previewUrl.toList ∧
    (w.app.imageFile = none → w.app.previewUrl = none ∧ w.app.isLoading = false)

theorem fullInv_init : FullInv initWorld :=
  ⟨rfl, fun _ => ⟨rfl, rfl⟩⟩

theorem fullInv_step (w : World) (e : Ev) (h : FullInv w) : FullInv (step w e) := by
  obtain ⟨⟨fi, pu, ar, il, er⟩, ⟨alloc, nxt⟩, pend⟩ := w
  obtain ⟨h1, h2⟩ := h
  have h1c : alloc = pu.toList := h1
  have h2c : fi = none → pu = none ∧ il = false := h2
  subst h1c
  cases e with
  | select f =>
      cases fi with
      | none =>
          obtain ⟨hp, -⟩ := h2c rfl
          have hpc : pu = none := hp
          subst hpc
          exact ⟨rfl, by intro hx; cases hx⟩
      | some g => exact ⟨rfl, h2c⟩
  | scan =>
      cases fi with
      | none => exact ⟨rfl, h2c⟩
      | some f =>
          cases ar with
          | none =>
              cases il with
              | false => exact ⟨rfl, by intro hx; cases hx⟩
              | true => exact ⟨rfl, h2c⟩
          | some r0 => exact ⟨rfl, h2c⟩
  | reset =>
      cases fi with
      | none => exact ⟨rfl, h2c⟩
      | some g =>
          cases pu with
          | none => exact ⟨rfl, by intro hx; exact ⟨rfl, rfl⟩⟩
          | some url =>
              refine ⟨?_, by intro hx; exact ⟨rfl, rfl⟩⟩
              simp [step, resetState, revokeObjectURL, Option.toList]
  | resolve r =>
      cases pend with
      | nil => exact ⟨rfl, h2c⟩
      | cons f rest =>
          refine ⟨rfl, ?_⟩
          intro hx
          exact ⟨(h2c hx).1, rfl⟩
  | reject m =>
      cases pend with
      | nil => exact ⟨rfl, h2c⟩
      | cons f rest =>
          refine ⟨rfl, ?_⟩
          intro hx
          exact ⟨(h2c hx).1, rfl⟩

theorem fullInv_fold (evs : List Ev) :
    ∀ w : World, FullInv w → FullInv (evs.foldl step w) := by
  induction evs with
  | nil => intro w hw; exact hw
  | cons e rest ih => intro w hw; exact ih (step w e) (fullInv_step w e hw)

theorem fullInv_run (evs : List Ev) : FullInv (run evs) :=
  fullInv_fold evs initWorld fullInv_init

/-- Invariant of the event loop under the discipline that the user never
resets while a request is in flight: at most one request is pending, a
pending request implies the loading flag is up with result and error both
clear, and result and error are never both present. -/
def SafeInv (w : World) : Prop :=
  w.pending.length ≤ 1 ∧
    (w.app.isLoading = false → w.pending = []) ∧
    (w.pending = [] ∨
      (w.app.isLoading = true ∧ w.app.analysisResult = none ∧ w.app.error = none)) ∧
    (w.app.analysisResult = none ∨ w.app.error = none)

theorem safeInv_init : SafeInv initWorld :=
  ⟨by decide, fun _ => rfl, Or.inl rfl, Or.inl rfl⟩

theorem safeInv_step (w : World) (e : Ev) (h : SafeInv w) : SafeInv (stepSafe w e) := by
  obtain ⟨⟨fi, pu, ar, il, er⟩, ⟨alloc, nxt⟩, pend⟩ := w
  obtain ⟨h1, h2, h3, h4⟩ := h
  have h1c : pend.length ≤ 1 := h1
  have h2c : il = false → pend = [] := h2
  have h3c : pend = [] ∨ (il = true ∧ ar = none ∧ er = none) := h3
  have h4c : ar = none ∨ er = none := h4
  cases e with
  | select f =>
      cases fi with
      | none =>
          refine ⟨h1c, h2c, ?_, Or.inl rfl⟩
          rcases h3c with h3c | h3c
          · exact Or.inl h3c
          · exact Or.inr ⟨h3c.1, rfl, rfl⟩
      | some g => exact ⟨h1c, h2c, h3c, h4c⟩
  | scan =>
      cases fi with
      | none => exact ⟨h1c, h2c, h3c, h4c⟩
      | some f =>
          cases ar with
          | none =>
              cases il with
              | false =>
                  have hp : pend = [] := h2c rfl
                  subst hp
                  refine ⟨Nat.le_refl 1, ?_, Or.inr ⟨rfl, rfl, rfl⟩, Or.inl rfl⟩
                  intro hx
                  have hx2 : (true : Bool) = false := hx
                  exact Bool.noConfusion hx2
              | true => exact ⟨h1c, h2c, h3c, h4c⟩
          | some r0 => exact ⟨h1c, h2c, h3c, h4c⟩
  | reset =>
      cases hp : pend with
      | nil =>
          cases fi with
          | none =>
              subst hp
              exact ⟨h1c, h2c, h3c, h4c⟩
          | some g =>
              subst hp
              exact ⟨Nat.zero_le 1, fun _ => rfl, Or.inl rfl, Or.inl rfl⟩
      | cons f rest =>
          subst hp
          exact ⟨h1c, h2c, h3c, h4c⟩
  | resolve r =>
      cases pend with
      | nil => exact ⟨h1c, h2c, h3c, h4c⟩
      | cons f rest =>
          rcases h3c with h3c | h3c
          · cases h3c
          · have hrest : rest = [] := by
              have h0 := Nat.le_of_succ_le_succ h1c
              exact List.eq_nil_of_length_eq_zero (Nat.le_zero.mp h0)
            subst hrest
            exact ⟨Nat.zero_le 1, fun _ => rfl, Or.inl rfl, Or.inr h3c.2.2⟩
  | reject m =>
      cases pend with
      | nil => exact ⟨h1c, h2c, h3c, h4c⟩
      | cons f rest =>
          rcases h3c with h3c | h3c
          · cases h3c
          · have hrest : rest = [] := by
              have h0 := Nat.le_of_succ_le_succ h1c
              exact List.eq_nil_of_length_eq_zero (Nat.le_zero.mp h0)
            subst hrest
            exact ⟨Nat.zero_le 1, fun _ => rfl, Or.inl rfl, Or.inl h3c.2.1⟩

theorem safeInv_fold (evs : List Ev) :
    ∀ w : World, SafeInv w → SafeInv (evs.foldl stepSafe w) := by
  induction evs with
  | nil => intro w hw; exact hw
  | cons e rest ih => intro w hw; exact ih (stepSafe w e) (safeInv_step w e hw)

theorem safeInv_run (evs : List Ev) : SafeInv (runSafe evs) :=
  safeInv_fold evs initWorld safeInv_init

/-- A second sample file, distinct from the first. -/
def sampleFile2 : File := ⟨1, "image/png"⟩

/-- A concrete analysis record used as a request resolution value. -/
def staleResult : RawAnalysis :=
  ⟨some "Toyota", some "Camry", some "Blue", some "2021"⟩

/-- The world after selecting a file and starting a scan: one request is
in flight and the loading flag is up. -/
def loadingWorld : World := run [Ev.select sampleFile, Ev.scan]

/-- C3: in every reachable world the object-URL registry holds exactly the
handle of the currently held preview, so after a reset, and equally across
any selection of a new image, no prior preview handle remains allocated. -/
theorem no_stale_preview_handle (evs : List Ev) :
    (run evs).urls.allocated = (run evs).app.previewUrl.toList :=
  (fullInv_run evs).1

/-- C6: whenever the user can select a file (the picker is only rendered
while no image is held), selecting it yields the Ready state holding
exactly that asset: the file is stored and no result, error or loading
flag is carried over. -/
theorem select_yields_ready (evs : List Ev) (f : File)
    (h : (run evs).app.imageFile = none) :
    (step (run evs) (Ev.select f)).app.imageFile = some f ∧
      (step (run evs) (Ev.select f)).app.analysisResult = none ∧
      (step (run evs) (Ev.select f)).app.error = none ∧
      (step (run evs) (Ev.select f)).app.isLoading = false := by
  have hl : (run evs).app.isLoading = false := ((fullInv_run evs).2 h).2
  refine ⟨?_, ?_, ?_, ?_⟩ <;> simp [step, h, handleFileSelect, hl]

/-- Witness for C6: selecting a file from the initial world. -/
theorem select_yields_ready_witness :
    (step (run []) (Ev.select sampleFile)).app.imageFile = some sampleFile ∧
      (step (run []) (Ev.select sampleFile)).app.analysisResult = none ∧
      (step (run []) (Ev.select sampleFile)).app.error = none ∧
      (step (run []) (Ev.select sampleFile)).app.isLoading = false :=
  select_yields_ready [] sampleFile rfl

/-- C7: resetState always yields the pristine idle state with every field
cleared, and the prior preview handle is no longer allocated afterwards. -/
theorem resetState_yields_idle (s : AppState) (u : UrlEnv) :
    (resetState s u).1 = initialAppState ∧
      ∀ url, s.previewUrl = some url → url ∉ (resetState s u).2.allocated := by
  constructor
  · rfl
  · intro url hu
    simp [resetState, hu, revokeObjectURL, List.mem_filter]

/-- Witness for C7 at a concrete non-idle state holding an allocated
preview handle. -/
theorem resetState_yields_idle_witness :
    (resetState ⟨some sampleFile, some 5, some staleResult, true, some "x"⟩ ⟨[5], 6⟩).1
        = initialAppState ∧
      5 ∉ (resetState ⟨some sampleFile, some 5, some staleResult, true, some "x"⟩
            ⟨[5], 6⟩).2.allocated :=
  ⟨(resetState_yields_idle ⟨some sampleFile, some 5, some staleResult, true, some "x"⟩
      ⟨[5], 6⟩).1,
   (resetState_yields_idle ⟨some sampleFile, some 5, some staleResult, true, some "x"⟩
      ⟨[5], 6⟩).2 5 rfl⟩

/-- C9: triggering the scan action with no selected image is a no-op: the
handler bails out before doing anything, the state is unchanged, and the
adapter is not invoked. -/
theorem scan_without_file_noop (w : World) (h : w.app.imageFile = none) :
    handleScanStart w.app = (w.app, false) ∧ step w Ev.scan = w := by
  constructor
  · simp [handleScanStart, h]
  · simp [step, h]

/-- Witness for C9 at the initial world. -/
theorem scan_without_file_noop_witness :
    handleScanStart initWorld.app = (initWorld.app, false) ∧
      step initWorld Ev.scan = initWorld :=
  scan_without_file_noop initWorld rfl

/-- Counterexample to C2: after select, scan and reset the state is back
to pristine idle, yet the late resolution of the still-pending request
writes its result into that newer state. -/
theorem stale_resolution_alters_newer_state :
    (run [Ev.select sampleFile, Ev.scan, Ev.reset]).app = initialAppState ∧
      (run [Ev.select sampleFile, Ev.scan, Ev.reset,
            Ev.resolve staleResult]).app.analysisResult = some staleResult := by
  constructor
  · rfl
  · rfl

/-- C2 amended: completion handlers perform no identity check against the
asset that initiated the request: whatever the current state, a resolution
or rejection of any in-flight request writes its result or error into that
state and lowers the loading flag. -/
theorem completion_writes_unconditionally (w : World) (r : RawAnalysis)
    (m : Option String) (h : w.pending ≠ []) :
    (step w (Ev.resolve r)).app
        = { w.app with analysisResult := some r, isLoading := false } ∧
      (step w (Ev.reject m)).app
        = { w.app with error := some (errMessageOr m), isLoading := false } := by
  cases hp : w.pending with
  | nil => exact absurd hp h
  | cons f rest =>
      constructor <;> simp [step, hp, scanResolve, scanReject]

/-- Witness for the amended C2 at a world with a request in flight. -/
theorem completion_writes_unconditionally_witness :
    (step loadingWorld (Ev.resolve staleResult)).app
        = { loadingWorld.app with analysisResult := some staleResult, isLoading := false } ∧
      (step loadingWorld (Ev.reject (some "net"))).app
        = { loadingWorld.app with error := some (errMessageOr (some "net")), isLoading := false } :=
  completion_writes_unconditionally loadingWorld staleResult (some "net") (by decide)

/-- Counterexample to C5: resetting while a request is in flight and then
selecting and scanning again reaches a state with two requests in flight. -/
theorem two_requests_in_flight :
    (run [Ev.select sampleFile, Ev.scan, Ev.reset, Ev.select sampleFile2,
          Ev.scan]).pending.length = 2 := by
  rfl

/-- C5 amended: the scan trigger is inert while the loading flag is up, so
no second scan can start from the Loading state; and provided the user
never resets while a request is in flight, every reachable world has at
most one request in flight. -/
theorem single_flight_under_reset_discipline (w : World) (evs : List Ev)
    (h : w.app.isLoading = true) :
    step w Ev.scan = w ∧ (runSafe evs).pending.length ≤ 1 := by
  constructor
  · cases hf : w.app.imageFile with
    | none => simp [step, hf]
    | some f => simp [step, hf, h]
  · exact (safeInv_run evs).1

/-- Witness for the amended C5 with a loading world and an event list
containing a full scan round trip. -/
theorem single_flight_under_reset_discipline_witness :
    step loadingWorld Ev.scan = loadingWorld ∧
      (runSafe [Ev.select sampleFile, Ev.scan,
        Ev.resolve staleResult]).pending.length ≤ 1 :=
  single_flight_under_reset_discipline loadingWorld
    [Ev.select sampleFile, Ev.scan, Ev.resolve staleResult] (by decide)

/-- Counterexample to C10: with a reset while one request is in flight and
a second scan afterwards, one completion stores a result and the other
stores an error without clearing it, reaching a state where the analysis
result and the error message are both present. -/
theorem result_and_error_both_present :
    (run [Ev.select sampleFile, Ev.scan, Ev.reset, Ev.select sampleFile2, Ev.scan,
          Ev.resolve staleResult, Ev.reject (some "network down")]).app.analysisResult
        = some staleResult ∧
      (run [Ev.select sampleFile, Ev.scan, Ev.reset, Ev.select sampleFile2, Ev.scan,
          Ev.resolve staleResult, Ev.reject (some "network down")]).app.error
        = some "network down" := by
  constructor
  · rfl
  · rfl

/-- C10 amended: provided the user never resets while a request is in
flight, in every reachable world the analysis result and the error message
are never both present. -/
theorem result_error_exclusive_under_reset_discipline (evs : List Ev) :
    (runSafe evs).app.analysisResult = none ∨ (runSafe evs).app.error = none :=
  (safeInv_run evs).2.2.2
